import Mathlib

/- Verification development for the fastf1_utils repository: a shallow
   embedding of new_utils.py and standard_plots.py over list-based tables,
   with theorems checking the documented properties of the code. -/

/-- One row of the session lap table (one row per driver and lap).
Durations and timestamps are integer time units. -/
structure Lap where
  driver : String
  lapNumber : Nat
  lapTime : Int
  time : Int
  trackStatus : String
  stint : Nat
  compound : String
  pitInTime : Option Int
  pitOutTime : Option Int
  deriving DecidableEq, Repr

/-- One timestamped weather sample of the session weather table. -/
structure WeatherSample where
  time : Int
  airTemp : Int
  humidity : Int
  pressure : Int
  rainfall : Int
  trackTemp : Int
  windDirection : Int
  windSpeed : Int
  deriving DecidableEq, Repr

/-- A loaded fastf1 session: its lap table and its weather table. -/
structure Session where
  laps : List Lap
  weather : List WeatherSample
  deriving DecidableEq, Repr

/-- Sum of the lap times of the given driver over the given rows.  The value
of the per-driver running sum at a row is this sum over the table prefix
ending at that row. -/
def cumUpTo (rows : List Lap) (d : String) : Int :=
  ((rows.filter (fun l => l.driver == d)).map (fun l => l.lapTime)).sum

/-- Helper for withCumulative: pre is the list of rows already passed. -/
def withCumulativeAux (pre : List Lap) : List Lap → List (Lap × Int)
  | [] => []
  | l :: ls => (l, cumUpTo (pre ++ [l]) l.driver) :: withCumulativeAux (pre ++ [l]) ls

/-- The groupby Driver cumsum of LapTime: each row paired with the running sum
of lap times of the same driver up to and including the row, in table order. -/
def withCumulative (laps : List Lap) : List (Lap × Int) :=
  withCumulativeAux [] laps

/-- Largest lap number in the cumulative table (0 when the table is empty). -/
def clMaxLap (cl : List (Lap × Int)) : Nat :=
  (cl.map (fun p => p.1.lapNumber)).foldl max 0

/-- The distinct lap numbers of the table in ascending order: the group keys
of groupby LapNumber. -/
def clLapNumbers (cl : List (Lap × Int)) : List Nat :=
  (List.range (clMaxLap cl + 1)).filter (fun n => cl.any (fun p => p.1.lapNumber == n))

/-- Minimum cumulative time of a group, seeded with x. -/
def minCum (x : Int) (g : List (Lap × Int)) : Int :=
  (g.map (fun p => p.2)).foldl min x

/-- idxmin on CumulativeTime: the first row of the group attaining the minimum
cumulative time (pandas idxmin selects the first occurrence of the minimum). -/
def argminFirst : List (Lap × Int) → Option (Lap × Int)
  | [] => none
  | p :: ps => (p :: ps).find? (fun q => q.2 == minCum p.2 ps)

/-- The row selection laps.loc of the groupby LapNumber idxmin of
CumulativeTime: for each distinct lap number, the row of minimum cumulative
time, the leader at that lap. -/
def leaderFrom (cl : List (Lap × Int)) : List (Lap × Int) :=
  (clLapNumbers cl).filterMap (fun n => argminFirst (cl.filter (fun p => p.1.lapNumber == n)))

/-- Leader rows of a lap table, with their cumulative times. -/
def leaderLaps (laps : List Lap) : List (Lap × Int) :=
  leaderFrom (withCumulative laps)

/-- get_track_status_by_lap from new_utils.py: per distinct lap number, the
track status as seen by the leader at that lap. -/
def get_track_status_by_lap (s : Session) : List (Nat × String) :=
  (leaderLaps s.laps).map (fun p => (p.1.lapNumber, p.1.trackStatus))

/-- Example lap table: driver A, laps 1 to 3, lap times 90, 91, 89, and
driver B, laps 1 to 3, lap times 92, 88, 90, interleaved in input order. -/
def exLapA1 : Lap :=
  { driver := "A", lapNumber := 1, lapTime := 90, time := 90, trackStatus := "1",
    stint := 1, compound := "SOFT", pitInTime := none, pitOutTime := none }

/-- Example lap: driver B, lap 1. -/
def exLapB1 : Lap :=
  { driver := "B", lapNumber := 1, lapTime := 92, time := 92, trackStatus := "1",
    stint := 1, compound := "MEDIUM", pitInTime := none, pitOutTime := none }

/-- Example lap: driver A, lap 2. -/
def exLapA2 : Lap :=
  { driver := "A", lapNumber := 2, lapTime := 91, time := 181, trackStatus := "1",
    stint := 1, compound := "SOFT", pitInTime := none, pitOutTime := none }

/-- Example lap: driver B, lap 2, under a virtual safety car. -/
def exLapB2 : Lap :=
  { driver := "B", lapNumber := 2, lapTime := 88, time := 180, trackStatus := "6",
    stint := 1, compound := "MEDIUM", pitInTime := none, pitOutTime := none }

/-- Example lap: driver A, lap 3, under a safety car. -/
def exLapA3 : Lap :=
  { driver := "A", lapNumber := 3, lapTime := 89, time := 270, trackStatus := "4",
    stint := 2, compound := "HARD", pitInTime := none, pitOutTime := none }

/-- Example lap: driver B, lap 3. -/
def exLapB3 : Lap :=
  { driver := "B", lapNumber := 3, lapTime := 90, time := 270, trackStatus := "1",
    stint := 1, compound := "MEDIUM", pitInTime := none, pitOutTime := none }

/-- The example lap table of the specification. -/
def exampleLapsAB : List Lap :=
  [exLapA1, exLapB1, exLapA2, exLapB2, exLapA3, exLapB3]

/-- Example weather table with two samples. -/
def exWeather : List WeatherSample :=
  [{ time := 50, airTemp := 25, humidity := 40, pressure := 1000, rainfall := 0,
     trackTemp := 35, windDirection := 180, windSpeed := 3 },
   { time := 200, airTemp := 26, humidity := 41, pressure := 1001, rainfall := 0,
     trackTemp := 36, windDirection := 190, windSpeed := 4 }]

/-- The example session. -/
def exSession : Session :=
  { laps := exampleLapsAB, weather := exWeather }

/-- Timestamp order on weather samples: sort_values by Time. -/
def weatherLeTime (a b : WeatherSample) : Prop := a.time ≤ b.time

instance : DecidableRel weatherLeTime := fun a b => Int.decLe a.time b.time

/-- Timestamp order on cumulative lap rows: sort_values by Time. -/
def lapRowLeTime (a b : Lap × Int) : Prop := a.1.time ≤ b.1.time

instance : DecidableRel lapRowLeTime := fun a b => Int.decLe a.1.time b.1.time

/-- Keep whichever sample is strictly closer in time to t; on a tie the
current best, which pandas merge_asof direction nearest fills with the
backward match, the one earlier in the time-sorted table. -/
def closerSample (t : Int) (best w : WeatherSample) : WeatherSample :=
  if (w.time - t).natAbs < (best.time - t).natAbs then w else best

/-- The nearest-in-time weather sample to t, scanning the time-sorted weather
table: the match merge_asof with direction nearest produces for one row. -/
def nearestSample (t : Int) : List WeatherSample → Option WeatherSample
  | [] => none
  | w :: ws => some (ws.foldl (closerSample t) w)

/-- The projected weather columns of the output of get_weather_data_by_lap:
every column of a sample except its timestamp. -/
structure WeatherCols where
  airTemp : Int
  humidity : Int
  pressure : Int
  rainfall : Int
  trackTemp : Int
  windDirection : Int
  windSpeed : Int
  deriving DecidableEq, Repr

/-- Column projection applied to each matched sample. -/
def WeatherSample.cols (w : WeatherSample) : WeatherCols :=
  { airTemp := w.airTemp, humidity := w.humidity, pressure := w.pressure,
    rainfall := w.rainfall, trackTemp := w.trackTemp,
    windDirection := w.windDirection, windSpeed := w.windSpeed }

/-- get_weather_data_by_lap from new_utils.py: leader laps sorted by time,
each joined by merge_asof direction nearest to the time-sorted weather table,
projected to lap number and weather columns.  A missing match (empty weather
table) yields none, as the unmatched NaN row does in pandas. -/
def get_weather_data_by_lap (s : Session) : List (Nat × Option WeatherCols) :=
  let ll := List.insertionSort lapRowLeTime (leaderLaps s.laps)
  let wd := List.insertionSort weatherLeTime s.weather
  ll.map (fun p => (p.1.lapNumber, (nearestSample p.1.time wd).map WeatherSample.cols))

/-- One shaded vertical band drawn by axvspan. -/
structure HighlightSpan where
  xmin : ℚ
  xmax : ℚ
  color : String
  alpha : ℚ
  deriving DecidableEq, Repr

/-- The track status codes treated as safety car in standard_plots.py. -/
def scCodes : List String := ["4"]

/-- The track status codes treated as virtual safety car (deployed, ending). -/
def vscCodes : List String := ["6", "7"]

/-- plot_track_status_highlights from standard_plots.py: for each leader lap
whose status is the safety car code a yellow band, and for each leader lap
whose status is one of the two virtual safety car codes an orange band, each
from half a lap before to half a lap after the lap number. -/
def plot_track_status_highlights (s : Session) : List HighlightSpan :=
  let ts := get_track_status_by_lap s
  let scLaps := (ts.filter (fun p => scCodes.contains p.2)).map Prod.fst
  let vscLaps := (ts.filter (fun p => vscCodes.contains p.2)).map Prod.fst
  (scLaps.map (fun n => { xmin := (n : ℚ) - 1/2, xmax := (n : ℚ) + 1/2,
                          color := "yellow", alpha := 3/10 }))
    ++ (vscLaps.map (fun n => { xmin := (n : ℚ) - 1/2, xmax := (n : ℚ) + 1/2,
                                color := "orange", alpha := 3/10 }))

/-- One plotted race-trace line: a driver and its (lap number, gap) points. -/
structure TraceLine where
  driver : String
  points : List (Nat × ℚ)
  deriving DecidableEq, Repr

/-- The figure plot_race_trace returns: title, y label, the status bands, one
line per plotted driver, and the y axis inversion. -/
structure RaceTraceFig where
  title : String
  ylabel : String
  statusSpans : List HighlightSpan
  lines : List TraceLine
  yAxisInverted : Bool
  deriving DecidableEq, Repr

/-- Reference series for mode average: per lap number, the mean cumulative
time over the rows of that lap number. -/
def averageRef (laps : List Lap) : List (Nat × ℚ) :=
  let cl := withCumulative laps
  (clLapNumbers cl).map (fun n =>
    let g := cl.filter (fun p => p.1.lapNumber == n)
    (n, ((g.map (fun p => (p.2 : ℚ))).sum) / (g.length : ℚ)))

/-- Reference series for mode leader: per lap number, the minimum cumulative
time, read off the leader rows. -/
def leaderRef (laps : List Lap) : List (Nat × ℚ) :=
  (leaderLaps laps).map (fun p => (p.1.lapNumber, (p.2 : ℚ)))

/-- Reference series for an explicit driver: that driver rows, indexed by
lap number, in table order. -/
def driverRef (laps : List Lap) (d : String) : List (Nat × ℚ) :=
  ((withCumulative laps).filter (fun p => p.1.driver == d)).map
    (fun p => (p.1.lapNumber, (p.2 : ℚ)))

/-- The inner merge of driver rows with the reference series on LapNumber,
with the gap CumulativeTime minus ReferenceTime: left order, every matching
reference row in series order. -/
def innerJoinGaps (dl : List (Lap × Int)) (ref : List (Nat × ℚ)) : List (Nat × ℚ) :=
  dl.flatMap (fun p =>
    (ref.filter (fun r => r.1 == p.1.lapNumber)).map
      (fun r => (p.1.lapNumber, (p.2 : ℚ) - r.2)))

/-- The gap series plotted for one driver. -/
def driverGaps (laps : List Lap) (ref : List (Nat × ℚ)) (d : String) : List (Nat × ℚ) :=
  innerJoinGaps ((withCumulative laps).filter (fun p => p.1.driver == d)) ref

/-- First-occurrence distinct values, as pandas unique returns them. -/
def uniqueFirst {α : Type} [DecidableEq α] : List α → List α
  | [] => []
  | a :: as => a :: uniqueFirst (as.filter (fun b => b != a))
termination_by l => l.length
decreasing_by
  simp only [List.length_cons]
  exact Nat.lt_succ_of_le (List.length_filter_le _ _)

/-- The default driver list: the distinct drivers of the lap table. -/
def defaultDrivers (laps : List Lap) : List String :=
  uniqueFirst (laps.map (fun l => l.driver))

/-- The plotting loop of plot_race_trace: one line per listed driver that has
rows, skipping silently every listed driver without rows. -/
def raceTraceLines (laps : List Lap) (ref : List (Nat × ℚ)) (drivers : List String) :
    List TraceLine :=
  drivers.filterMap (fun d =>
    if ((withCumulative laps).filter (fun p => p.1.driver == d)).isEmpty then none
    else some { driver := d, points := driverGaps laps ref d })

/-- The driver list the plotting loop iterates: the passed list when truthy,
the distinct drivers of the table otherwise (an empty passed list is falsy in
the source and also falls back). -/
def driversChosen (laps : List Lap) (drivers_to_plot : Option (List String)) :
    List String :=
  match drivers_to_plot with
  | some ds => if ds.isEmpty then defaultDrivers laps else ds
  | none => defaultDrivers laps

/-- plot_race_trace from standard_plots.py.  The first component is the list
of printed messages, the second the figure, none when the function returns
early.  The dtype coercion loop of the source only rewrites column dtypes and
is the identity on this typed table. -/
def plot_race_trace (s : Session) (relative_to : String)
    (drivers_to_plot : Option (List String)) : List String × Option RaceTraceFig :=
  let laps := s.laps
  let drivers := driversChosen laps drivers_to_plot
  if relative_to = "average" then
    ([], some { title := "Race Progression Relative to Average",
                ylabel := "Time Delta to Average (s)",
                statusSpans := plot_track_status_highlights s,
                lines := raceTraceLines laps (averageRef laps) drivers,
                yAxisInverted := true })
  else if relative_to = "leader" then
    ([], some { title := "Race Gaps to Leader",
                ylabel := "Gap to Leader (s)",
                statusSpans := plot_track_status_highlights s,
                lines := raceTraceLines laps (leaderRef laps) drivers,
                yAxisInverted := true })
  else
    if ((withCumulative laps).filter (fun p => p.1.driver == relative_to)).isEmpty then
      (["Driver " ++ relative_to ++ " not found."], none)
    else
      ([], some { title := "Race Gaps Relative to " ++ relative_to,
                  ylabel := "Gap to " ++ relative_to ++ " (s)",
                  statusSpans := plot_track_status_highlights s,
                  lines := raceTraceLines laps (driverRef laps relative_to) drivers,
                  yAxisInverted := true })

/-- The group key of the tyre stint aggregation: Driver, Stint, Compound. -/
def lapKey (l : Lap) : String × Nat × String :=
  (l.driver, l.stint, l.compound)

/-- The stint table of plot_tyre_strategy: groupby Driver, Stint, Compound
with the minimum and maximum LapNumber of each group. -/
def plot_tyre_strategy_stints (laps : List Lap) :
    List ((String × Nat × String) × Nat × Nat) :=
  (uniqueFirst (laps.map lapKey)).filterMap (fun k =>
    match (laps.filter (fun l => decide (lapKey l = k))).map (fun l => l.lapNumber) with
    | [] => none
    | n :: ns => some (k, ns.foldl min n, ns.foldl max n))

/-- The track status codes excluded by the safety car filter of
plot_lap_times. -/
def scvscCodes : List String := ["4", "6", "7"]

/-- The first-lap filter of plot_lap_times keeps laps with LapNumber above 1. -/
def keepAfterFirstLap (l : Lap) : Bool := decide (1 < l.lapNumber)

/-- The safety car filter of plot_lap_times keeps laps whose status is not
among the safety car and virtual safety car codes. -/
def keepNonSCLap (l : Lap) : Bool := !(scvscCodes.contains l.trackStatus)

/-- The pit filter of plot_lap_times keeps laps with neither a pit-in nor a
pit-out timestamp. -/
def keepNonPitLap (l : Lap) : Bool := l.pitInTime.isNone && l.pitOutTime.isNone

/-- The retained laps of one driver in plot_lap_times, after the enabled
filters, applied in source order: first lap, safety car, pit. -/
def lapTimesRetained (laps : List Lap) (d : String)
    (ignorePit ignoreSC ignoreFirst : Bool) : List Lap :=
  let dl := laps.filter (fun l => l.driver == d)
  let dl1 := if ignoreFirst then dl.filter keepAfterFirstLap else dl
  let dl2 := if ignoreSC then dl1.filter keepNonSCLap else dl1
  if ignorePit then dl2.filter keepNonPitLap else dl2

/-- plot_lap_times from standard_plots.py: per listed driver, the plotted
(lap number, lap time) points of the retained laps. -/
def plot_lap_times (s : Session) (drivers : List String)
    (ignorePit ignoreSC ignoreFirst : Bool) : List (String × List (Nat × Int)) :=
  drivers.map (fun d =>
    (d, (lapTimesRetained s.laps d ignorePit ignoreSC ignoreFirst).map
      (fun l => (l.lapNumber, l.lapTime))))

/-- A lap table object on the heap: its rows and, when present, the derived
CumulativeTime column. -/
structure LapsDF where
  rows : List Lap
  cumCol : Option (List Int)
  deriving DecidableEq, Repr

/-- Read a heap cell (a missing reference reads as an empty table). -/
def hread : List LapsDF → Nat → LapsDF
  | [], _ => { rows := [], cumCol := none }
  | df :: _, 0 => df
  | _ :: h, n + 1 => hread h n

/-- Write a heap cell in place. -/
def hwrite : List LapsDF → Nat → LapsDF → List LapsDF
  | [], _, _ => []
  | _ :: h, 0, v => v :: h
  | df :: h, n + 1, v => df :: hwrite h n v

/-- A session whose lap table lives on the heap, so that mutation through
aliases is observable. -/
structure SessionH where
  lapsRef : Nat
  weather : List WeatherSample

/-- The column assignment laps CumulativeTime equals groupby cumsum, applied
to a heap table. -/
def dfSetCum (df : LapsDF) : LapsDF :=
  { rows := df.rows, cumCol := some ((withCumulative df.rows).map (fun p => p.2)) }

/-- The rows of a heap table zipped with its cumulative column. -/
def dfCumPairs (df : LapsDF) : List (Lap × Int) :=
  match df.cumCol with
  | some c => df.rows.zip c
  | none => []

/-- Heap-level get_track_status_by_lap: copy the session lap table to a fresh
cell, assign the cumulative column there, and build the status view from the
copy.  Returns the final heap and the result. -/
def get_track_status_by_lap_h (h : List LapsDF) (s : SessionH) :
    List LapsDF × List (Nat × String) :=
  let df := hread h s.lapsRef
  let h1 := h ++ [df]
  let r := h.length
  let h2 := hwrite h1 r (dfSetCum (hread h1 r))
  let cl := dfCumPairs (hread h2 r)
  (h2, (leaderFrom cl).map (fun p => (p.1.lapNumber, p.1.trackStatus)))

/-- Heap-level get_weather_data_by_lap: same copy discipline; the weather
table is only rebound locally, never written. -/
def get_weather_data_by_lap_h (h : List LapsDF) (s : SessionH) :
    List LapsDF × List (Nat × Option WeatherCols) :=
  let df := hread h s.lapsRef
  let h1 := h ++ [df]
  let r := h.length
  let h2 := hwrite h1 r (dfSetCum (hread h1 r))
  let cl := dfCumPairs (hread h2 r)
  let ll := List.insertionSort lapRowLeTime (leaderFrom cl)
  let wd := List.insertionSort weatherLeTime s.weather
  (h2, ll.map (fun p => (p.1.lapNumber, (nearestSample p.1.time wd).map WeatherSample.cols)))

/-- Example lap with a composite track status string containing the virtual
safety car codes without being one of them. -/
def exLapC1 : Lap :=
  { driver := "C", lapNumber := 1, lapTime := 96, time := 96, trackStatus := "67",
    stint := 1, compound := "SOFT", pitInTime := none, pitOutTime := none }

/-- Example lap with a composite track status string containing the safety
car code without being it. -/
def exLapC2 : Lap :=
  { driver := "C", lapNumber := 2, lapTime := 95, time := 191, trackStatus := "45",
    stint := 1, compound := "SOFT", pitInTime := none, pitOutTime := none }

/-- Example lap table with composite status strings only. -/
def exampleLaps45 : List Lap := [exLapC1, exLapC2]

/-- Example session with composite status strings only. -/
def exSession45 : Session :=
  { laps := exampleLaps45, weather := exWeather }

/-- The rows of the cumulative table are the rows of the lap table. -/
theorem withCumulativeAux_map_fst (ls : List Lap) :
    ∀ pre, (withCumulativeAux pre ls).map Prod.fst = ls := by
  induction ls with
  | nil => intro pre; rfl
  | cons l ls ih => intro pre; simp [withCumulativeAux, ih]

/-- Dropping the cumulative column gives back the lap table. -/
theorem withCumulative_map_fst (laps : List Lap) :
    (withCumulative laps).map Prod.fst = laps :=
  withCumulativeAux_map_fst laps []

/-- A left fold of min is at most its seed. -/
theorem foldl_min_le_init {α : Type} [LinearOrder α] (l : List α) (x : α) :
    l.foldl min x ≤ x := by
  induction l generalizing x with
  | nil => exact le_refl x
  | cons a l ih => exact le_trans (ih (min x a)) (min_le_left x a)

/-- A left fold of min is at most every member. -/
theorem foldl_min_le_mem {α : Type} [LinearOrder α] (l : List α) (x : α) :
    ∀ y ∈ l, l.foldl min x ≤ y := by
  induction l generalizing x with
  | nil => intro y hy; cases hy
  | cons a l ih =>
    intro y hy
    rcases List.mem_cons.mp hy with h | h
    · subst h; exact le_trans (foldl_min_le_init l (min x y)) (min_le_right x y)
    · exact ih (min x a) y h

/-- A left fold of min is its seed or a member. -/
theorem foldl_min_cases {α : Type} [LinearOrder α] (l : List α) (x : α) :
    l.foldl min x = x ∨ l.foldl min x ∈ l := by
  induction l generalizing x with
  | nil => exact Or.inl rfl
  | cons a l ih =>
    rw [List.foldl_cons]
    rcases ih (min x a) with h | h
    · rcases min_choice x a with hx | ha
      · exact Or.inl (by rw [h, hx])
      · exact Or.inr (by rw [h, ha]; exact List.mem_cons_self a l)
    · exact Or.inr (List.mem_cons_of_mem a h)

/-- The seed is at most a left fold of max. -/
theorem foldl_max_init_le {α : Type} [LinearOrder α] (l : List α) (x : α) :
    x ≤ l.foldl max x := by
  induction l generalizing x with
  | nil => exact le_refl x
  | cons a l ih => exact le_trans (le_max_left x a) (ih (max x a))

/-- Every member is at most a left fold of max. -/
theorem foldl_max_mem_le {α : Type} [LinearOrder α] (l : List α) (x : α) :
    ∀ y ∈ l, y ≤ l.foldl max x := by
  induction l generalizing x with
  | nil => intro y hy; cases hy
  | cons a l ih =>
    intro y hy
    rcases List.mem_cons.mp hy with h | h
    · subst h; exact le_trans (le_max_right x y) (foldl_max_init_le l (max x y))
    · exact ih (max x a) y h

/-- A left fold of max is its seed or a member. -/
theorem foldl_max_cases {α : Type} [LinearOrder α] (l : List α) (x : α) :
    l.foldl max x = x ∨ l.foldl max x ∈ l := by
  induction l generalizing x with
  | nil => exact Or.inl rfl
  | cons a l ih =>
    rw [List.foldl_cons]
    rcases ih (max x a) with h | h
    · rcases max_choice x a with hx | ha
      · exact Or.inl (by rw [h, hx])
      · exact Or.inr (by rw [h, ha]; exact List.mem_cons_self a l)
    · exact Or.inr (List.mem_cons_of_mem a h)

/-- find? splits its list at the first hit: everything earlier fails the
predicate. -/
theorem find?_split {α : Type} (p : α → Bool) (l : List α) (a : α)
    (h : l.find? p = some a) :
    p a = true ∧ ∃ l1 l2, l = l1 ++ a :: l2 ∧ ∀ x ∈ l1, p x = false := by
  induction l with
  | nil => cases h
  | cons b l ih =>
    cases hb : p b with
    | true =>
      rw [List.find?_cons_of_pos _ hb] at h
      cases h
      exact ⟨hb, [], l, rfl, by intro x hx; cases hx⟩
    | false =>
      rw [List.find?_cons_of_neg _ (by simp [hb])] at h
      obtain ⟨hpa, l1, l2, rfl, hl1⟩ := ih h
      refine ⟨hpa, b :: l1, l2, rfl, ?_⟩
      intro x hx
      rcases List.mem_cons.mp hx with h1 | h1
      · subst h1; exact hb
      · exact hl1 x h1

/-- On a nonempty group, idxmin returns a row. -/
theorem argminFirst_eq_some_of_ne_nil (g : List (Lap × Int)) (h : g ≠ []) :
    ∃ r, argminFirst g = some r := by
  match g with
  | [] => exact absurd rfl h
  | p :: ps =>
    have hmem : ∃ q ∈ p :: ps, (q.2 == minCum p.2 ps) = true := by
      rcases foldl_min_cases (ps.map (fun q => q.2)) p.2 with h1 | h1
      · exact ⟨p, List.mem_cons_self _ _, by simp [minCum, h1]⟩
      · obtain ⟨q, hq, hq2⟩ := List.mem_map.mp h1
        exact ⟨q, List.mem_cons_of_mem _ hq, by simp [minCum, hq2]⟩
    obtain ⟨q, hq, hq2⟩ := hmem
    have : ((p :: ps).find? (fun q => q.2 == minCum p.2 ps)).isSome :=
      List.find?_isSome.mpr ⟨q, hq, hq2⟩
    obtain ⟨r, hr⟩ := Option.isSome_iff_exists.mp this
    exact ⟨r, hr⟩

/-- What idxmin on a group guarantees: the row is in the group, minimizes the
cumulative time there, and every strictly earlier row of the group has a
strictly larger cumulative time. -/
theorem argminFirst_spec (g : List (Lap × Int)) (r : Lap × Int)
    (h : argminFirst g = some r) :
    r ∈ g ∧ (∀ q ∈ g, r.2 ≤ q.2) ∧
      ∃ g1 g2, g = g1 ++ r :: g2 ∧ ∀ q ∈ g1, r.2 < q.2 := by
  match g with
  | [] => cases h
  | p :: ps =>
    unfold argminFirst at h
    obtain ⟨hpr, l1, l2, heq, hl1⟩ := find?_split _ _ _ h
    have hr2 : r.2 = minCum p.2 ps := by simpa using hpr
    have hmin : ∀ q ∈ p :: ps, minCum p.2 ps ≤ q.2 := by
      intro q hq
      rcases List.mem_cons.mp hq with h1 | h1
      · subst h1; exact foldl_min_le_init _ _
      · exact foldl_min_le_mem _ _ _ (List.mem_map_of_mem _ h1)
    have hrg : r ∈ p :: ps := by
      rw [heq]; exact List.mem_append_right _ (List.mem_cons_self _ _)
    refine ⟨hrg, ?_, l1, l2, heq, ?_⟩
    · intro q hq; rw [hr2]; exact hmin q hq
    · intro q hq
      have hqg : q ∈ p :: ps := by rw [heq]; exact List.mem_append_left _ hq
      have hle : minCum p.2 ps ≤ q.2 := hmin q hqg
      have hne : q.2 ≠ minCum p.2 ps := by simpa using hl1 q hq
      rw [hr2]
      exact lt_of_le_of_ne hle (Ne.symm hne)

/-- The group keys of groupby LapNumber are exactly the lap numbers present. -/
theorem mem_clLapNumbers (cl : List (Lap × Int)) (n : Nat) :
    n ∈ clLapNumbers cl ↔ ∃ q ∈ cl, q.1.lapNumber = n := by
  unfold clLapNumbers
  rw [List.mem_filter]
  constructor
  · rintro ⟨-, h⟩
    obtain ⟨q, hq, hq2⟩ := List.any_eq_true.mp h
    exact ⟨q, hq, by simpa using hq2⟩
  · rintro ⟨q, hq, rfl⟩
    refine ⟨List.mem_range.mpr ?_, List.any_eq_true.mpr ⟨q, hq, by simp⟩⟩
    have : q.1.lapNumber ≤ clMaxLap cl :=
      foldl_max_mem_le _ 0 _ (List.mem_map_of_mem _ hq)
    omega

/-- The group keys of groupby LapNumber are distinct. -/
theorem clLapNumbers_nodup (cl : List (Lap × Int)) : (clLapNumbers cl).Nodup :=
  List.Nodup.filter _ (List.nodup_range _)

/-- A filterMap whose function always hits and inverts the projection maps
back onto its input. -/
theorem map_filterMap_eq_self {α β : Type} (g : β → α) (f : α → Option β)
    (ns : List α) (h : ∀ n ∈ ns, ∃ r, f n = some r ∧ g r = n) :
    (ns.filterMap f).map g = ns := by
  induction ns with
  | nil => rfl
  | cons n ns ih =>
    obtain ⟨r, hr, hg⟩ := h n (List.mem_cons_self _ _)
    rw [List.filterMap_cons, hr, List.map_cons, hg,
      ih (fun m hm => h m (List.mem_cons_of_mem _ hm))]

/-- Every leader row is a row of the table, minimizes cumulative time over
its lap number group, and is the first row of the group attaining that
minimum. -/
theorem leaderFrom_spec (cl : List (Lap × Int)) (p : Lap × Int)
    (h : p ∈ leaderFrom cl) :
    p ∈ cl ∧ (∀ q ∈ cl, q.1.lapNumber = p.1.lapNumber → p.2 ≤ q.2) ∧
      ∃ g1 g2, cl.filter (fun q => q.1.lapNumber == p.1.lapNumber) = g1 ++ p :: g2 ∧
        ∀ q ∈ g1, p.2 < q.2 := by
  obtain ⟨n, hn, hsome⟩ := List.mem_filterMap.mp h
  obtain ⟨hmemg, hming, g1, g2, hsplit, hg1⟩ := argminFirst_spec _ _ hsome
  have hpn : p.1.lapNumber = n := by
    have := (List.mem_filter.mp hmemg).2
    simpa using this
  subst hpn
  refine ⟨(List.mem_filter.mp hmemg).1, ?_, g1, g2, hsplit, hg1⟩
  intro q hq hqn
  exact hming q (List.mem_filter.mpr ⟨hq, by simpa using hqn⟩)

/-- The leader view has exactly the distinct lap numbers as its rows, in key
order. -/
theorem leaderFrom_map_lapNumber (cl : List (Lap × Int)) :
    (leaderFrom cl).map (fun p => p.1.lapNumber) = clLapNumbers cl := by
  unfold leaderFrom
  apply map_filterMap_eq_self
  intro n hn
  obtain ⟨q, hq, hqn⟩ := (mem_clLapNumbers cl n).mp hn
  have hne : cl.filter (fun p => p.1.lapNumber == n) ≠ [] := by
    intro hnil
    have : q ∈ cl.filter (fun p => p.1.lapNumber == n) :=
      List.mem_filter.mpr ⟨hq, by simp [hqn]⟩
    rw [hnil] at this
    cases this
  obtain ⟨r, hr⟩ := argminFirst_eq_some_of_ne_nil _ hne
  refine ⟨r, hr, ?_⟩
  have := (List.mem_filter.mp (argminFirst_spec _ _ hr).1).2
  simpa using this

/-- A filter of the cumulative table by a row predicate projects to the same
filter of the lap table. -/
theorem filter_fst_map (laps : List Lap) (p : Lap → Bool) :
    ((withCumulative laps).filter (fun q => p q.1)).map Prod.fst = laps.filter p := by
  conv_rhs => rw [← withCumulative_map_fst laps]
  rw [List.filter_map]
  rfl

/-- The cumulative table has rows of a driver exactly when the lap table
does. -/
theorem filter_driver_empty_iff (laps : List Lap) (d : String) :
    ((withCumulative laps).filter (fun q => q.1.driver == d)) = [] ↔
      laps.filter (fun l => l.driver == d) = [] := by
  rw [← filter_fst_map laps (fun l => l.driver == d), List.map_eq_nil_iff]

/-- The lap numbers of a driver in the cumulative table are those of the lap
table. -/
theorem filter_driver_map_lapNumber (laps : List Lap) (d : String) :
    ((withCumulative laps).filter (fun q => q.1.driver == d)).map (fun q => q.1.lapNumber) =
      (laps.filter (fun l => l.driver == d)).map (fun l => l.lapNumber) := by
  rw [← filter_fst_map laps (fun l => l.driver == d), List.map_map]
  rfl

/-- When the mapped list has no duplicates, the projection is injective on
members. -/
theorem nodup_map_inj {α β : Type} (f : α → β) (l : List α)
    (h : (l.map f).Nodup) : ∀ a ∈ l, ∀ b ∈ l, f a = f b → a = b := by
  induction l with
  | nil => intro a ha; cases ha
  | cons x l ih =>
    rw [List.map_cons, List.nodup_cons] at h
    intro a ha b hb hf
    rcases List.mem_cons.mp ha with rfl | ha2
    · rcases List.mem_cons.mp hb with rfl | hb2
      · rfl
      · exact absurd (hf ▸ List.mem_map_of_mem f hb2) h.1
    · rcases List.mem_cons.mp hb with rfl | hb2
      · exact absurd (hf ▸ List.mem_map_of_mem f ha2) (by simpa using h.1)
      · exact ih h.2 a ha2 b hb2 hf

/-- Commuting two list filters. -/
theorem filter_comm {α : Type} (p q : α → Bool) (l : List α) :
    (l.filter p).filter q = (l.filter q).filter p := by
  induction l with
  | nil => rfl
  | cons a l ih =>
    cases hp : p a <;> cases hq : q a <;>
      simp [List.filter_cons, hp, hq, ih]

/-- Helper for the uniqueFirst lemmas: induction on a length bound. -/
theorem uniqueFirst_aux {α : Type} [DecidableEq α] :
    ∀ (n : Nat) (l : List α), l.length ≤ n →
      (∀ a, a ∈ uniqueFirst l ↔ a ∈ l) ∧ (uniqueFirst l).Nodup := by
  intro n
  induction n with
  | zero =>
    intro l hl
    match l with
    | [] => exact ⟨fun a => by rw [uniqueFirst], by rw [uniqueFirst]; exact List.nodup_nil⟩
    | b :: bs => simp at hl
  | succ n ih =>
    intro l hl
    match l with
    | [] => exact ⟨fun a => by rw [uniqueFirst], by rw [uniqueFirst]; exact List.nodup_nil⟩
    | b :: bs =>
      have hlen : (bs.filter (fun x => x != b)).length ≤ n := by
        have h1 := List.length_filter_le (fun x => x != b) bs
        simp only [List.length_cons] at hl
        omega
      obtain ⟨ihmem, ihnd⟩ := ih _ hlen
      constructor
      · intro a
        rw [uniqueFirst, List.mem_cons, ihmem a, List.mem_filter, List.mem_cons]
        constructor
        · rintro (rfl | ⟨h1, -⟩)
          · exact Or.inl rfl
          · exact Or.inr h1
        · rintro (rfl | h1)
          · exact Or.inl rfl
          · by_cases hab : a = b
            · exact Or.inl hab
            · exact Or.inr ⟨h1, by simpa using hab⟩
      · rw [uniqueFirst, List.nodup_cons]
        refine ⟨?_, ihnd⟩
        intro hmem
        have := (List.mem_filter.mp ((ihmem b).mp hmem)).2
        simp at this

/-- uniqueFirst preserves membership. -/
theorem mem_uniqueFirst {α : Type} [DecidableEq α] (l : List α) (a : α) :
    a ∈ uniqueFirst l ↔ a ∈ l :=
  (uniqueFirst_aux l.length l (le_refl _)).1 a

/-- uniqueFirst has distinct values. -/
theorem uniqueFirst_nodup {α : Type} [DecidableEq α] (l : List α) :
    (uniqueFirst l).Nodup :=
  (uniqueFirst_aux l.length l (le_refl _)).2

/-- What the fold inside nearestSample guarantees: the result is the seed or
a member, and its time distance to t is minimal among seed and members. -/
theorem foldl_closer_spec (t : Int) (ws : List WeatherSample) :
    ∀ w, (ws.foldl (closerSample t) w = w ∨ ws.foldl (closerSample t) w ∈ ws) ∧
      ((ws.foldl (closerSample t) w).time - t).natAbs ≤ (w.time - t).natAbs ∧
      ∀ v ∈ ws, ((ws.foldl (closerSample t) w).time - t).natAbs ≤ (v.time - t).natAbs := by
  induction ws with
  | nil =>
    intro w
    exact ⟨Or.inl rfl, le_refl _, by intro v hv; cases hv⟩
  | cons u ws ih =>
    intro w
    have key := ih (closerSample t w u)
    have hcs_mem : closerSample t w u = w ∨ closerSample t w u = u := by
      unfold closerSample
      split
      · exact Or.inr rfl
      · exact Or.inl rfl
    have hcs_le_w : ((closerSample t w u).time - t).natAbs ≤ (w.time - t).natAbs := by
      unfold closerSample
      split <;> omega
    have hcs_le_u : ((closerSample t w u).time - t).natAbs ≤ (u.time - t).natAbs := by
      unfold closerSample
      split <;> omega
    rw [List.foldl_cons]
    refine ⟨?_, le_trans key.2.1 hcs_le_w, ?_⟩
    · rcases key.1 with h | h
      · rw [h]
        rcases hcs_mem with h2 | h2
        · exact Or.inl h2
        · exact Or.inr (by rw [h2]; exact List.mem_cons_self _ _)
      · exact Or.inr (List.mem_cons_of_mem _ h)
    · intro v hv
      rcases List.mem_cons.mp hv with rfl | hv2
      · exact le_trans key.2.1 hcs_le_u
      · exact key.2.2 v hv2

/-- On a nonempty table, nearestSample returns a member that minimizes the
absolute time distance to t. -/
theorem nearestSample_spec (t : Int) (ws : List WeatherSample) (h : ws ≠ []) :
    ∃ w, nearestSample t ws = some w ∧ w ∈ ws ∧
      ∀ v ∈ ws, (w.time - t).natAbs ≤ (v.time - t).natAbs := by
  match ws with
  | [] => exact absurd rfl h
  | u :: us =>
    obtain ⟨hmem, hle, hall⟩ := foldl_closer_spec t us u
    refine ⟨us.foldl (closerSample t) u, rfl, ?_, ?_⟩
    · rcases hmem with h1 | h1
      · rw [h1]; exact List.mem_cons_self _ _
      · exact List.mem_cons_of_mem _ h1
    · intro v hv
      rcases List.mem_cons.mp hv with rfl | hv2
      · exact hle
      · exact hall v hv2

/-- Zipping the two projections of a pair list restores it. -/
theorem zip_fst_snd {α β : Type} (l : List (α × β)) :
    (l.map Prod.fst).zip (l.map Prod.snd) = l := by
  induction l with
  | nil => rfl
  | cons p l ih => simp [ih]

/-- Assigning the cumulative column and zipping it back gives the cumulative
table of the rows. -/
theorem dfCumPairs_dfSetCum (df : LapsDF) :
    dfCumPairs (dfSetCum df) = withCumulative df.rows := by
  show df.rows.zip ((withCumulative df.rows).map (fun p => p.2)) = withCumulative df.rows
  nth_rewrite 1 [← withCumulative_map_fst df.rows]
  exact zip_fst_snd _

/-- Reading below the end of a heap ignores a cell appended at the end. -/
theorem hread_append_lt (h : List LapsDF) (v : LapsDF) (i : Nat)
    (hi : i < h.length) : hread (h ++ [v]) i = hread h i := by
  induction h generalizing i with
  | nil => cases hi
  | cons d h ih =>
    cases i with
    | zero => rfl
    | succ n => exact ih n (Nat.lt_of_succ_lt_succ hi)

/-- Reading the cell just appended. -/
theorem hread_append_self (h : List LapsDF) (v : LapsDF) :
    hread (h ++ [v]) h.length = v := by
  induction h with
  | nil => rfl
  | cons d h ih => exact ih

/-- Writing the cell just appended replaces only it. -/
theorem hwrite_append_self (h : List LapsDF) (v w : LapsDF) :
    hwrite (h ++ [v]) h.length w = h ++ [w] := by
  induction h with
  | nil => rfl
  | cons d h ih => simp [hwrite, ih]

/-- Every row of the cumulative table is a row of the lap table. -/
theorem mem_fst_withCumulative (laps : List Lap) (q : Lap × Int)
    (hq : q ∈ withCumulative laps) : q.1 ∈ laps :=
  withCumulative_map_fst laps ▸ List.mem_map_of_mem Prod.fst hq

/-- Every row of the lap table appears in the cumulative table. -/
theorem exists_withCumulative_of_mem (laps : List Lap) (l : Lap)
    (hl : l ∈ laps) : ∃ q ∈ withCumulative laps, q.1 = l := by
  have : l ∈ (withCumulative laps).map Prod.fst := by
    rw [withCumulative_map_fst]; exact hl
  exact List.mem_map.mp this

/-- Claim C1: the leader-lap view built by get_track_status_by_lap has
exactly one row per distinct lap number; that row minimizes the per-driver
running sum of lap durations over all rows of its lap number, with the first
row in input order chosen on a tie; and on the example session with drivers
A (90, 91, 89) and B (92, 88, 90) the cumulative times are A 90, 181, 270
and B 92, 180, 270 and the leaders are lap 1 A, lap 2 B, lap 3 A. -/
theorem c1_leader_lap_view :
    (∀ s : Session,
      ((get_track_status_by_lap s).map Prod.fst = clLapNumbers (withCumulative s.laps)
        ∧ (leaderLaps s.laps).map (fun p => p.1.lapNumber) = clLapNumbers (withCumulative s.laps)
        ∧ (clLapNumbers (withCumulative s.laps)).Nodup
        ∧ (∀ n, n ∈ clLapNumbers (withCumulative s.laps) ↔ ∃ l ∈ s.laps, l.lapNumber = n))
      ∧ (∀ p ∈ leaderLaps s.laps, ∀ q ∈ withCumulative s.laps,
          q.1.lapNumber = p.1.lapNumber → p.2 ≤ q.2)
      ∧ (∀ p ∈ leaderLaps s.laps,
          ∃ g1 g2, (withCumulative s.laps).filter
              (fun q => q.1.lapNumber == p.1.lapNumber) = g1 ++ p :: g2 ∧
            ∀ q ∈ g1, p.2 < q.2))
    ∧ (withCumulative exampleLapsAB).map (fun p => (p.1.driver, p.2)) =
        [("A", 90), ("B", 92), ("A", 181), ("B", 180), ("A", 270), ("B", 270)]
    ∧ (leaderLaps exampleLapsAB).map (fun p => (p.1.lapNumber, p.1.driver, p.2)) =
        [(1, "A", 90), (2, "B", 180), (3, "A", 270)] := by
  refine ⟨?_, by decide, by decide⟩
  intro s
  refine ⟨⟨?_, leaderFrom_map_lapNumber _, clLapNumbers_nodup _, ?_⟩, ?_, ?_⟩
  · unfold get_track_status_by_lap
    rw [List.map_map]
    exact leaderFrom_map_lapNumber _
  · intro n
    rw [mem_clLapNumbers]
    constructor
    · rintro ⟨q, hq, rfl⟩
      exact ⟨q.1, mem_fst_withCumulative _ _ hq, rfl⟩
    · rintro ⟨l, hl, rfl⟩
      obtain ⟨q, hq, hql⟩ := exists_withCumulative_of_mem _ _ hl
      exact ⟨q, hq, by rw [hql]⟩
  · intro p hp q hq hqn
    exact (leaderFrom_spec _ p hp).2.1 q hq hqn
  · intro p hp
    exact (leaderFrom_spec _ p hp).2.2

/-- Witness for claim C1: at lap 3 of the example session the tie at 270 is
resolved to the row of driver A, whose cumulative time is at most that of the
row of driver B at the same lap number. -/
theorem c1_leader_lap_view_witness :
    (exLapA3, (270 : Int)) ∈ leaderLaps exampleLapsAB ∧
    (exLapB3, (270 : Int)) ∈ withCumulative exampleLapsAB ∧
    ((exLapB3, (270 : Int)) : Lap × Int).1.lapNumber =
      ((exLapA3, (270 : Int)) : Lap × Int).1.lapNumber ∧
    ((exLapA3, (270 : Int)) : Lap × Int).2 ≤ ((exLapB3, (270 : Int)) : Lap × Int).2 :=
  ⟨by decide, by decide, by decide,
    (c1_leader_lap_view.1 exSession).2.1 (exLapA3, (270 : Int)) (by decide)
      (exLapB3, (270 : Int)) (by decide) (by decide)⟩

/-- Claim C6: the three lap exclusion filters of plot_lap_times commute
pairwise: either order of any two retains the same laps. -/
theorem c6_lap_time_filters_commute (laps : List Lap) :
    (laps.filter keepAfterFirstLap).filter keepNonSCLap =
        (laps.filter keepNonSCLap).filter keepAfterFirstLap
      ∧ (laps.filter keepAfterFirstLap).filter keepNonPitLap =
        (laps.filter keepNonPitLap).filter keepAfterFirstLap
      ∧ (laps.filter keepNonSCLap).filter keepNonPitLap =
        (laps.filter keepNonPitLap).filter keepNonSCLap :=
  ⟨filter_comm _ _ _, filter_comm _ _ _, filter_comm _ _ _⟩

/-- Claim C9: both safety car classifications test the status string for
exact equality with the designated codes, so composite strings such as 45 or
67 are never classified: the example session with only composite statuses
produces no highlight spans, and its composite-status lap survives the
safety car exclusion of plot_lap_times. -/
theorem c9_exact_code_match :
    (∀ st : String,
      (scCodes.contains st = true ↔ st = "4")
        ∧ (vscCodes.contains st = true ↔ st = "6" ∨ st = "7")
        ∧ (scvscCodes.contains st = true ↔ st = "4" ∨ st = "6" ∨ st = "7"))
    ∧ scCodes.contains ("45") = false
    ∧ vscCodes.contains ("45") = false
    ∧ vscCodes.contains ("67") = false
    ∧ scvscCodes.contains ("45") = false
    ∧ scvscCodes.contains ("67") = false
    ∧ plot_track_status_highlights exSession45 = []
    ∧ lapTimesRetained exampleLaps45 ("C") true true true = [exLapC2] := by
  refine ⟨?_, by decide, by decide, by decide, by decide, by decide, by decide, by decide⟩
  intro st
  refine ⟨?_, ?_, ?_⟩ <;> simp [scCodes, vscCodes, scvscCodes, List.contains]

/-- Lists that are empty together have equal isEmpty flags. -/
theorem isEmpty_congr {α β : Type} {l1 : List α} {l2 : List β}
    (h : l1 = [] ↔ l2 = []) : l1.isEmpty = l2.isEmpty := by
  cases l1 <;> cases l2 <;> simp_all

/-- The emptiness test of the cumulative table filtered by driver agrees with
the lap table filtered by driver. -/
theorem isEmpty_filter_driver (laps : List Lap) (d : String) :
    ((withCumulative laps).filter (fun p => p.1.driver == d)).isEmpty =
      (laps.filter (fun l => l.driver == d)).isEmpty :=
  isEmpty_congr (filter_driver_empty_iff laps d)

/-- Claim C5: naming an absent driver as the explicit reference makes
plot_race_trace print a report and return no figure; the function returns
normally. -/
theorem c5_absent_reference_driver (s : Session) (relative_to : String)
    (dtp : Option (List String))
    (h1 : relative_to ≠ "average") (h2 : relative_to ≠ "leader")
    (h3 : s.laps.filter (fun l => l.driver == relative_to) = []) :
    plot_race_trace s relative_to dtp =
      (["Driver " ++ relative_to ++ " not found."], none) := by
  have hemp : ((withCumulative s.laps).filter (fun p => p.1.driver == relative_to)).isEmpty = true :=
    List.isEmpty_iff.mpr ((filter_driver_empty_iff s.laps relative_to).mpr h3)
  simp only [plot_race_trace]
  rw [if_neg h1, if_neg h2, if_pos hemp]

/-- Witness for claim C5: requesting the absent driver Z on the example
session yields exactly the report and no figure. -/
theorem c5_absent_reference_driver_witness :
    (("Z" : String) ≠ "average") ∧ (("Z" : String) ≠ "leader") ∧
    exSession.laps.filter (fun l => l.driver == ("Z" : String)) = [] ∧
    plot_race_trace exSession ("Z") none =
      (["Driver " ++ "Z" ++ " not found."], none) :=
  ⟨by decide, by decide, by decide,
    c5_absent_reference_driver exSession ("Z") none (by decide) (by decide) (by decide)⟩

/-- The plotted drivers are exactly the listed drivers that have rows. -/
theorem raceTraceLines_map_driver (laps : List Lap) (ref : List (Nat × ℚ))
    (ds : List String) :
    (raceTraceLines laps ref ds).map (fun t => t.driver) =
      ds.filter (fun d => !((withCumulative laps).filter (fun p => p.1.driver == d)).isEmpty) := by
  induction ds with
  | nil => rfl
  | cons d ds ih =>
    simp only [raceTraceLines, List.filterMap_cons, List.filter_cons] at ih ⊢
    cases hemp : ((withCumulative laps).filter (fun p => p.1.driver == d)).isEmpty with
    | false => simpa [hemp] using ih
    | true => simpa [hemp] using ih

/-- Claim C10: a listed driver with no laps is skipped silently by
plot_race_trace: nothing is printed, a figure is still returned, its lines
are exactly the listed drivers that have laps, and the absent driver has no
line. -/
theorem c10_missing_listed_driver_skipped (s : Session) (dtp : List String)
    (d : String) (hmem : d ∈ dtp)
    (habs : s.laps.filter (fun l => l.driver == d) = []) :
    (plot_race_trace s ("leader") (some dtp)).1 = [] ∧
    ∃ fig, (plot_race_trace s ("leader") (some dtp)).2 = some fig ∧
      fig.lines.map (fun t => t.driver) =
        dtp.filter (fun d2 => !((s.laps.filter (fun l => l.driver == d2)).isEmpty)) ∧
      d ∉ fig.lines.map (fun t => t.driver) := by
  have hne : dtp.isEmpty = false := by
    cases dtp
    · cases hmem
    · rfl
  have hlines :
      (raceTraceLines s.laps (leaderRef s.laps) dtp).map (fun t => t.driver) =
        dtp.filter (fun d2 => !((s.laps.filter (fun l => l.driver == d2)).isEmpty)) := by
    rw [raceTraceLines_map_driver]
    exact List.filter_congr (fun d2 _ => by rw [isEmpty_filter_driver])
  have hplot : plot_race_trace s ("leader") (some dtp) =
      ([], some { title := "Race Gaps to Leader", ylabel := "Gap to Leader (s)",
                  statusSpans := plot_track_status_highlights s,
                  lines := raceTraceLines s.laps (leaderRef s.laps) dtp,
                  yAxisInverted := true }) := by
    simp only [plot_race_trace, driversChosen, hne]
    simp
  refine ⟨by rw [hplot], _, by rw [hplot], hlines, ?_⟩
  rw [hlines]
  intro hd
  have := (List.mem_filter.mp hd).2
  rw [habs] at this
  simp at this

/-- Witness for claim C10: on the example session with listed drivers A and
absent Z, nothing is printed, a figure is returned, its only line belongs to
A, and Z has no line. -/
theorem c10_missing_listed_driver_skipped_witness :
    (("Z" : String) ∈ [("A" : String), ("Z" : String)]) ∧
    (exSession.laps.filter (fun l => l.driver == ("Z" : String)) = []) ∧
    ((plot_race_trace exSession ("leader") (some [("A" : String), ("Z" : String)])).1 = [] ∧
      ∃ fig,
        (plot_race_trace exSession ("leader") (some [("A" : String), ("Z" : String)])).2 =
          some fig ∧
        fig.lines.map (fun t => t.driver) =
          [("A" : String), ("Z" : String)].filter
            (fun d2 => !((exSession.laps.filter (fun l => l.driver == d2)).isEmpty)) ∧
        ("Z" : String) ∉ fig.lines.map (fun t => t.driver)) :=
  ⟨by decide, by decide,
    c10_missing_listed_driver_skipped exSession [("A"), ("Z")] ("Z")
      (by decide) (by decide)⟩

/-- Every line the plotting loop emits belongs to a listed driver that has
rows and carries exactly the joined gap series of its driver. -/
theorem mem_raceTraceLines (laps : List Lap) (ref : List (Nat × ℚ))
    (ds : List String) (line : TraceLine) (h : line ∈ raceTraceLines laps ref ds) :
    line.points = driverGaps laps ref line.driver ∧ line.driver ∈ ds := by
  obtain ⟨d, hd, hfd⟩ := List.mem_filterMap.mp h
  cases hemp : ((withCumulative laps).filter (fun p => p.1.driver == d)).isEmpty with
  | true => simp [hemp] at hfd
  | false =>
    simp only [hemp, Bool.false_eq_true, if_false] at hfd
    obtain rfl := Option.some.inj hfd
    exact ⟨rfl, hd⟩

/-- Reduction of plot_race_trace in leader mode. -/
theorem plot_race_trace_leader_eq (s : Session) (dtp : Option (List String)) :
    plot_race_trace s ("leader") dtp =
      ([], some { title := "Race Gaps to Leader", ylabel := "Gap to Leader (s)",
                  statusSpans := plot_track_status_highlights s,
                  lines := raceTraceLines s.laps (leaderRef s.laps)
                    (driversChosen s.laps dtp),
                  yAxisInverted := true }) := by
  simp [plot_race_trace]

/-- Claim C3: in leader mode every plotted line carries the joined gap
series against the leader reference, and the leader row of each lap number
contributes gap exactly zero to the line of its driver; with an explicit
reference driver, every plotted line carries the gap series against that
driver reference, and the reference driver own gap series is identically
zero when its lap numbers are distinct. -/
theorem c3_reference_gap_zero :
    (∀ (s : Session) (dtp : Option (List String)) (fig : RaceTraceFig),
      (plot_race_trace s ("leader") dtp).2 = some fig →
      ∀ line ∈ fig.lines, line.points = driverGaps s.laps (leaderRef s.laps) line.driver)
    ∧ (∀ (s : Session) (p : Lap × Int), p ∈ leaderLaps s.laps →
      (p.1.lapNumber, (0 : ℚ)) ∈ driverGaps s.laps (leaderRef s.laps) p.1.driver)
    ∧ (∀ (s : Session) (d : String) (dtp : Option (List String)) (fig : RaceTraceFig),
      d ≠ "average" → d ≠ "leader" → (plot_race_trace s d dtp).2 = some fig →
      ∀ line ∈ fig.lines, line.points = driverGaps s.laps (driverRef s.laps d) line.driver)
    ∧ (∀ (s : Session) (d : String),
      ((s.laps.filter (fun l => l.driver == d)).map (fun l => l.lapNumber)).Nodup →
      ∀ pt ∈ driverGaps s.laps (driverRef s.laps d) d, pt.2 = 0) := by
  refine ⟨?_, ?_, ?_, ?_⟩
  · intro s dtp fig hfig line hline
    rw [plot_race_trace_leader_eq] at hfig
    obtain rfl := Option.some.inj hfig
    exact (mem_raceTraceLines _ _ _ _ hline).1
  · intro s p hp
    have hpcl : p ∈ withCumulative s.laps := (leaderFrom_spec _ p hp).1
    have hpdl : p ∈ (withCumulative s.laps).filter (fun q => q.1.driver == p.1.driver) :=
      List.mem_filter.mpr ⟨hpcl, by simp⟩
    unfold driverGaps innerJoinGaps
    rw [List.mem_flatMap]
    refine ⟨p, hpdl, ?_⟩
    rw [List.mem_map]
    refine ⟨(p.1.lapNumber, (p.2 : ℚ)), ?_, ?_⟩
    · rw [List.mem_filter]
      exact ⟨List.mem_map_of_mem _ hp, by simp⟩
    · simp
  · intro s d dtp fig h1 h2 hfig line hline
    simp only [plot_race_trace] at hfig
    rw [if_neg h1, if_neg h2] at hfig
    cases hemp : ((withCumulative s.laps).filter (fun p => p.1.driver == d)).isEmpty with
    | true => rw [if_pos hemp] at hfig; cases hfig
    | false =>
      rw [if_neg (by simp [hemp])] at hfig
      obtain rfl := Option.some.inj hfig
      exact (mem_raceTraceLines _ _ _ _ hline).1
  · intro s d hnd pt hpt
    unfold driverGaps innerJoinGaps at hpt
    obtain ⟨p, hp, hpt2⟩ := List.mem_flatMap.mp hpt
    obtain ⟨r, hr, rfl⟩ := List.mem_map.mp hpt2
    have hrkey : r.1 = p.1.lapNumber := by
      simpa using (List.mem_filter.mp hr).2
    have hrmem := (List.mem_filter.mp hr).1
    unfold driverRef at hrmem
    obtain ⟨q, hq, rfl⟩ := List.mem_map.mp hrmem
    have hnd2 : (((withCumulative s.laps).filter (fun p => p.1.driver == d)).map
        (fun q => q.1.lapNumber)).Nodup := by
      rw [filter_driver_map_lapNumber]
      exact hnd
    have hqp : q = p := nodup_map_inj _ _ hnd2 q hq p hp (by simpa using hrkey)
    simp [hqp]

/-- Witness for claim C3: on the example session, the leader row of lap 1
contributes the zero gap point to the line of driver A, and driver A own gap
series against its own reference is identically zero. -/
theorem c3_reference_gap_zero_witness :
    ((exLapA1, (90 : Int)) ∈ leaderLaps exampleLapsAB) ∧
    (((1 : Nat), (0 : ℚ)) ∈
      driverGaps exampleLapsAB (leaderRef exampleLapsAB) ("A")) ∧
    ((exSession.laps.filter (fun l => l.driver == ("A" : String))).map
      (fun l => l.lapNumber)).Nodup ∧
    (∀ pt ∈ driverGaps exSession.laps (driverRef exSession.laps ("A")) ("A"), pt.2 = 0) :=
  ⟨by decide,
    c3_reference_gap_zero.2.1 exSession (exLapA1, (90 : Int)) (by decide),
    by decide,
    c3_reference_gap_zero.2.2.2 exSession ("A") (by decide)⟩

/-- Claim C4: plot_track_status_highlights shades exactly the lap numbers
whose leader status is the safety car code 4 (yellow) or one of the virtual
safety car codes 6 and 7 (orange), each band running from half a lap before
to half a lap after the lap number, so centered on it. -/
theorem c4_track_status_highlights (s : Session) :
    (∀ sp ∈ plot_track_status_highlights s,
      ∃ n st, (n, st) ∈ get_track_status_by_lap s ∧
        sp.xmin = (n : ℚ) - 1/2 ∧ sp.xmax = (n : ℚ) + 1/2 ∧
        ((st = "4" ∧ sp.color = "yellow") ∨ ((st = "6" ∨ st = "7") ∧ sp.color = "orange")))
    ∧ (∀ n st, (n, st) ∈ get_track_status_by_lap s →
      (st = "4" ∨ st = "6" ∨ st = "7") →
      ∃ sp ∈ plot_track_status_highlights s,
        sp.xmin = (n : ℚ) - 1/2 ∧ sp.xmax = (n : ℚ) + 1/2 ∧
        sp.color = (if st = "4" then "yellow" else "orange")) := by
  constructor
  · intro sp hsp
    simp only [plot_track_status_highlights] at hsp
    rw [List.mem_append] at hsp
    rcases hsp with h | h
    · obtain ⟨n, hn, rfl⟩ := List.mem_map.mp h
      obtain ⟨pr, hpr, rfl⟩ := List.mem_map.mp hn
      have hcode : pr.2 = "4" := by
        simpa [scCodes, List.contains] using (List.mem_filter.mp hpr).2
      refine ⟨pr.1, pr.2, ?_, rfl, rfl, Or.inl ⟨hcode, rfl⟩⟩
      rw [Prod.mk.eta]
      exact (List.mem_filter.mp hpr).1
    · obtain ⟨n, hn, rfl⟩ := List.mem_map.mp h
      obtain ⟨pr, hpr, rfl⟩ := List.mem_map.mp hn
      have hcode : pr.2 = "6" ∨ pr.2 = "7" := by
        simpa [vscCodes, List.contains] using (List.mem_filter.mp hpr).2
      refine ⟨pr.1, pr.2, ?_, rfl, rfl, Or.inr ⟨hcode, rfl⟩⟩
      rw [Prod.mk.eta]
      exact (List.mem_filter.mp hpr).1
  · intro n st hmem hst
    rcases hst with rfl | hst2
    · refine ⟨{ xmin := (n : ℚ) - 1/2, xmax := (n : ℚ) + 1/2,
                color := "yellow", alpha := 3/10 }, ?_, rfl, rfl, by rw [if_pos rfl]⟩
      simp only [plot_track_status_highlights]
      rw [List.mem_append]
      left
      rw [List.mem_map]
      refine ⟨n, ?_, rfl⟩
      rw [List.mem_map]
      exact ⟨(n, "4"), List.mem_filter.mpr ⟨hmem, by simp [scCodes, List.contains]⟩, rfl⟩
    · have hne : st ≠ "4" := by
        rcases hst2 with rfl | rfl <;> decide
      have hcontains : vscCodes.contains st = true := by
        rcases hst2 with rfl | rfl <;> decide
      refine ⟨{ xmin := (n : ℚ) - 1/2, xmax := (n : ℚ) + 1/2,
                color := "orange", alpha := 3/10 }, ?_, rfl, rfl, by rw [if_neg hne]⟩
      simp only [plot_track_status_highlights]
      rw [List.mem_append]
      right
      rw [List.mem_map]
      refine ⟨n, ?_, rfl⟩
      rw [List.mem_map]
      exact ⟨(n, st), List.mem_filter.mpr ⟨hmem, hcontains⟩, rfl⟩

/-- Witness for claim C4: lap 3 of the example session has leader status 4
and receives a yellow band from 5/2 to 7/2, centered on 3. -/
theorem c4_track_status_highlights_witness :
    (((3 : Nat), ("4" : String)) ∈ get_track_status_by_lap exSession) ∧
    (("4" : String) = "4" ∨ ("4" : String) = "6" ∨ ("4" : String) = "7") ∧
    (∃ sp ∈ plot_track_status_highlights exSession,
      sp.xmin = ((3 : Nat) : ℚ) - 1/2 ∧ sp.xmax = ((3 : Nat) : ℚ) + 1/2 ∧
      sp.color = (if ("4" : String) = "4" then "yellow" else "orange")) :=
  ⟨by decide, Or.inl rfl,
    (c4_track_status_highlights exSession).2 3 ("4") (by decide) (Or.inl rfl)⟩

/-- Claim C2: with nonempty lap and weather tables, every output row of
get_weather_data_by_lap carries the columns of a weather sample whose
timestamp minimizes the absolute distance to the timestamp of the leader lap
of that row, over all weather samples. -/
theorem c2_weather_nearest (s : Session) (h1 : s.laps ≠ []) (h2 : s.weather ≠ []) :
    (get_weather_data_by_lap s).length = (leaderLaps s.laps).length ∧
    ∀ row ∈ get_weather_data_by_lap s,
      ∃ p ∈ leaderLaps s.laps, row.1 = p.1.lapNumber ∧
        ∃ w ∈ s.weather, row.2 = some w.cols ∧
          ∀ v ∈ s.weather, (w.time - p.1.time).natAbs ≤ (v.time - p.1.time).natAbs := by
  have hperm := List.perm_insertionSort lapRowLeTime (leaderLaps s.laps)
  have hwperm := List.perm_insertionSort weatherLeTime s.weather
  constructor
  · unfold get_weather_data_by_lap
    rw [List.length_map]
    exact hperm.length_eq
  · intro row hrow
    unfold get_weather_data_by_lap at hrow
    obtain ⟨p, hp, rfl⟩ := List.mem_map.mp hrow
    refine ⟨p, hperm.mem_iff.mp hp, rfl, ?_⟩
    have hwne : List.insertionSort weatherLeTime s.weather ≠ [] := by
      intro hnil
      apply h2
      apply List.Perm.eq_nil
      rw [← hnil]
      exact hwperm.symm
    obtain ⟨w, hw_eq, hw_mem, hw_min⟩ := nearestSample_spec p.1.time _ hwne
    refine ⟨w, hwperm.mem_iff.mp hw_mem, ?_, ?_⟩
    · rw [hw_eq]
      rfl
    · intro v hv
      exact hw_min v (hwperm.mem_iff.mpr hv)

/-- Witness for claim C2: the example session has nonempty tables, and every
output row of its weather view carries a closest sample. -/
theorem c2_weather_nearest_witness :
    (exSession.laps ≠ []) ∧ (exSession.weather ≠ []) ∧
    ((get_weather_data_by_lap exSession).length = (leaderLaps exSession.laps).length ∧
      ∀ row ∈ get_weather_data_by_lap exSession,
        ∃ p ∈ leaderLaps exSession.laps, row.1 = p.1.lapNumber ∧
          ∃ w ∈ exSession.weather, row.2 = some w.cols ∧
            ∀ v ∈ exSession.weather,
              (w.time - p.1.time).natAbs ≤ (v.time - p.1.time).natAbs) :=
  ⟨by decide, by decide, c2_weather_nearest exSession (by decide) (by decide)⟩

/-- Claim C8: both derived-view builders copy the lap table: the heap cell
the session references is unchanged by either call, in particular its
cumulative column is not added, and both results agree with the pure
functions of the session value. -/
theorem c8_copy_semantics (h : List LapsDF) (s : SessionH)
    (hlt : s.lapsRef < h.length) :
    hread (get_track_status_by_lap_h h s).1 s.lapsRef = hread h s.lapsRef ∧
    hread (get_weather_data_by_lap_h h s).1 s.lapsRef = hread h s.lapsRef ∧
    (hread (get_track_status_by_lap_h h s).1 s.lapsRef).cumCol =
      (hread h s.lapsRef).cumCol ∧
    (hread (get_weather_data_by_lap_h h s).1 s.lapsRef).cumCol =
      (hread h s.lapsRef).cumCol ∧
    (get_track_status_by_lap_h h s).2 =
      get_track_status_by_lap { laps := (hread h s.lapsRef).rows, weather := s.weather } ∧
    (get_weather_data_by_lap_h h s).2 =
      get_weather_data_by_lap { laps := (hread h s.lapsRef).rows, weather := s.weather } := by
  have hfst : (get_track_status_by_lap_h h s).1 =
      h ++ [dfSetCum (hread h s.lapsRef)] := by
    simp only [get_track_status_by_lap_h]
    rw [hread_append_self, hwrite_append_self]
  have hfst2 : (get_weather_data_by_lap_h h s).1 =
      h ++ [dfSetCum (hread h s.lapsRef)] := by
    simp only [get_weather_data_by_lap_h]
    rw [hread_append_self, hwrite_append_self]
  have hframe : hread (h ++ [dfSetCum (hread h s.lapsRef)]) s.lapsRef =
      hread h s.lapsRef := hread_append_lt h _ s.lapsRef hlt
  have hsnd : (get_track_status_by_lap_h h s).2 =
      get_track_status_by_lap { laps := (hread h s.lapsRef).rows, weather := s.weather } := by
    simp only [get_track_status_by_lap_h]
    rw [hread_append_self, hwrite_append_self, hread_append_self, dfCumPairs_dfSetCum]
    rfl
  have hsnd2 : (get_weather_data_by_lap_h h s).2 =
      get_weather_data_by_lap { laps := (hread h s.lapsRef).rows, weather := s.weather } := by
    simp only [get_weather_data_by_lap_h]
    rw [hread_append_self, hwrite_append_self, hread_append_self, dfCumPairs_dfSetCum]
    rfl
  refine ⟨?_, ?_, ?_, ?_, hsnd, hsnd2⟩
  · rw [hfst]; exact hframe
  · rw [hfst2]; exact hframe
  · rw [hfst, hframe]
  · rw [hfst2, hframe]

/-- Witness for claim C8: a one-cell heap holding the example lap table
without a cumulative column is unchanged at that cell by both builders. -/
theorem c8_copy_semantics_witness :
    ((0 : Nat) < [({ rows := exampleLapsAB, cumCol := none } : LapsDF)].length) ∧
    (hread (get_track_status_by_lap_h [{ rows := exampleLapsAB, cumCol := none }]
        { lapsRef := 0, weather := exWeather }).1 0 =
      hread [{ rows := exampleLapsAB, cumCol := none }] 0 ∧
    hread (get_weather_data_by_lap_h [{ rows := exampleLapsAB, cumCol := none }]
        { lapsRef := 0, weather := exWeather }).1 0 =
      hread [{ rows := exampleLapsAB, cumCol := none }] 0 ∧
    (hread (get_track_status_by_lap_h [{ rows := exampleLapsAB, cumCol := none }]
        { lapsRef := 0, weather := exWeather }).1 0).cumCol =
      (hread [{ rows := exampleLapsAB, cumCol := none }] 0).cumCol ∧
    (hread (get_weather_data_by_lap_h [{ rows := exampleLapsAB, cumCol := none }]
        { lapsRef := 0, weather := exWeather }).1 0).cumCol =
      (hread [{ rows := exampleLapsAB, cumCol := none }] 0).cumCol ∧
    (get_track_status_by_lap_h [{ rows := exampleLapsAB, cumCol := none }]
        { lapsRef := 0, weather := exWeather }).2 =
      get_track_status_by_lap
        { laps := (hread [{ rows := exampleLapsAB, cumCol := none }] 0).rows,
          weather := exWeather } ∧
    (get_weather_data_by_lap_h [{ rows := exampleLapsAB, cumCol := none }]
        { lapsRef := 0, weather := exWeather }).2 =
      get_weather_data_by_lap
        { laps := (hread [{ rows := exampleLapsAB, cumCol := none }] 0).rows,
          weather := exWeather }) :=
  ⟨by decide,
    c8_copy_semantics [{ rows := exampleLapsAB, cumCol := none }]
      { lapsRef := 0, weather := exWeather } (by decide)⟩

/-- Every stint row of the aggregation has its minimum and maximum attained
by laps of its group, and bounds every lap of its group. -/
theorem stints_mem_spec (laps : List Lap) (k : String × Nat × String) (a b : Nat)
    (h : (k, a, b) ∈ plot_tyre_strategy_stints laps) :
    (∃ l ∈ laps, lapKey l = k ∧ l.lapNumber = a) ∧
    (∃ l ∈ laps, lapKey l = k ∧ l.lapNumber = b) ∧
    (∀ l ∈ laps, lapKey l = k → a ≤ l.lapNumber ∧ l.lapNumber ≤ b) := by
  obtain ⟨k0, hk0, hf⟩ := List.mem_filterMap.mp h
  cases hg : (laps.filter (fun l => decide (lapKey l = k0))).map (fun l => l.lapNumber) with
  | nil => rw [hg] at hf; cases hf
  | cons n ns =>
    rw [hg] at hf
    injection hf with hf2
    simp only [Prod.mk.injEq] at hf2
    obtain ⟨rfl, rfl, rfl⟩ := hf2
    have ha_mem : ns.foldl min n ∈ n :: ns := by
      rcases foldl_min_cases ns n with h1 | h1
      · rw [h1]; exact List.mem_cons_self _ _
      · exact List.mem_cons_of_mem _ h1
    have hb_mem : ns.foldl max n ∈ n :: ns := by
      rcases foldl_max_cases ns n with h1 | h1
      · rw [h1]; exact List.mem_cons_self _ _
      · exact List.mem_cons_of_mem _ h1
    rw [← hg] at ha_mem hb_mem
    obtain ⟨la, hla, hla_num⟩ := List.mem_map.mp ha_mem
    obtain ⟨lb, hlb, hlb_num⟩ := List.mem_map.mp hb_mem
    have hla2 := List.mem_filter.mp hla
    have hlb2 := List.mem_filter.mp hlb
    refine ⟨⟨la, hla2.1, by simpa using hla2.2, hla_num⟩,
      ⟨lb, hlb2.1, by simpa using hlb2.2, hlb_num⟩, ?_⟩
    intro l hl hlk
    have hlg : l.lapNumber ∈ n :: ns := by
      rw [← hg]
      exact List.mem_map_of_mem _ (List.mem_filter.mpr ⟨hl, by simp [hlk]⟩)
    rcases List.mem_cons.mp hlg with heq | hmem
    · rw [heq]
      exact ⟨foldl_min_le_init _ _, foldl_max_init_le _ _⟩
    · exact ⟨foldl_min_le_mem _ _ _ hmem, foldl_max_mem_le _ _ _ hmem⟩

/-- Every lap generates a stint row for its own group key. -/
theorem stints_exists_key (laps : List Lap) (l : Lap) (hl : l ∈ laps) :
    ∃ a b, (lapKey l, a, b) ∈ plot_tyre_strategy_stints laps := by
  have hk : lapKey l ∈ uniqueFirst (laps.map lapKey) :=
    (mem_uniqueFirst _ _).mpr (List.mem_map_of_mem _ hl)
  cases hg : (laps.filter (fun x => decide (lapKey x = lapKey l))).map (fun x => x.lapNumber) with
  | nil =>
    exfalso
    rw [List.map_eq_nil_iff] at hg
    have : l ∈ laps.filter (fun x => decide (lapKey x = lapKey l)) :=
      List.mem_filter.mpr ⟨hl, by simp⟩
    rw [hg] at this
    cases this
  | cons n ns =>
    refine ⟨ns.foldl min n, ns.foldl max n, ?_⟩
    apply List.mem_filterMap.mpr
    refine ⟨lapKey l, hk, ?_⟩
    rw [hg]

/-- Claim C7: under the data-model invariants that a driver has distinct lap
numbers and that each group of one driver, stint and compound covers a
contiguous range of that driver laps, the stint spans of plot_tyre_strategy
cover every lap of the driver, contain only lap numbers the driver completed
in that group, and spans of distinct groups of the driver never overlap. -/
theorem c7_stint_spans (s : Session) (d : String)
    (hnd : ((s.laps.filter (fun l => l.driver == d)).map (fun l => l.lapNumber)).Nodup)
    (hiv : ∀ l1 ∈ s.laps, ∀ l2 ∈ s.laps, lapKey l1 = lapKey l2 →
      ∀ n, n ≤ l2.lapNumber → l1.lapNumber ≤ n →
        ∃ l ∈ s.laps, lapKey l = lapKey l1 ∧ l.lapNumber = n) :
    (∀ l ∈ s.laps, l.driver = d →
      ∃ k a b, (k, a, b) ∈ plot_tyre_strategy_stints s.laps ∧ k.1 = d ∧
        a ≤ l.lapNumber ∧ l.lapNumber ≤ b)
    ∧ (∀ k a b, (k, a, b) ∈ plot_tyre_strategy_stints s.laps → k.1 = d →
      ∀ n, a ≤ n → n ≤ b →
        ∃ l ∈ s.laps, l.driver = d ∧ l.lapNumber = n ∧ lapKey l = k)
    ∧ (∀ k1 a1 b1 k2 a2 b2,
      (k1, a1, b1) ∈ plot_tyre_strategy_stints s.laps →
      (k2, a2, b2) ∈ plot_tyre_strategy_stints s.laps →
      k1.1 = d → k2.1 = d → k1 ≠ k2 →
      ∀ n, ¬(a1 ≤ n ∧ n ≤ b1 ∧ a2 ≤ n ∧ n ≤ b2)) := by
  have hii : ∀ k a b, (k, a, b) ∈ plot_tyre_strategy_stints s.laps → k.1 = d →
      ∀ n, a ≤ n → n ≤ b →
        ∃ l ∈ s.laps, l.driver = d ∧ l.lapNumber = n ∧ lapKey l = k := by
    intro k a b hmem hk1 n han hnb
    obtain ⟨⟨la, hla_mem, hla_key, hla_num⟩, ⟨lb, hlb_mem, hlb_key, hlb_num⟩, -⟩ :=
      stints_mem_spec s.laps k a b hmem
    obtain ⟨l, hlmem, hlkey, hlnum⟩ :=
      hiv la hla_mem lb hlb_mem (by rw [hla_key, hlb_key]) n
        (by rw [hlb_num]; exact hnb) (by rw [hla_num]; exact han)
    have hdr : l.driver = k.1 := by
      rw [show l.driver = (lapKey l).1 from rfl, hlkey, hla_key]
    exact ⟨l, hlmem, hdr.trans hk1, hlnum, by rw [hlkey, hla_key]⟩
  refine ⟨?_, hii, ?_⟩
  · intro l hl hld
    obtain ⟨a, b, hab⟩ := stints_exists_key s.laps l hl
    have hbounds := (stints_mem_spec s.laps (lapKey l) a b hab).2.2 l hl rfl
    exact ⟨lapKey l, a, b, hab, hld, hbounds.1, hbounds.2⟩
  · intro k1 a1 b1 k2 a2 b2 hm1 hm2 hk1 hk2 hne n hcontra
    obtain ⟨hn1, hn2, hn3, hn4⟩ := hcontra
    obtain ⟨l, hl, hld, hln, hlk⟩ := hii k1 a1 b1 hm1 hk1 n hn1 hn2
    obtain ⟨l2, hl2, hl2d, hl2n, hl2k⟩ := hii k2 a2 b2 hm2 hk2 n hn3 hn4
    have hmem1 : l ∈ s.laps.filter (fun x => x.driver == d) :=
      List.mem_filter.mpr ⟨hl, by simp [hld]⟩
    have hmem2 : l2 ∈ s.laps.filter (fun x => x.driver == d) :=
      List.mem_filter.mpr ⟨hl2, by simp [hl2d]⟩
    have heq : l = l2 :=
      nodup_map_inj _ _ hnd l hmem1 l2 hmem2 (by rw [hln, hl2n])
    apply hne
    rw [← hlk, heq, hl2k]

/-- Witness for claim C7: on the example session, both invariants hold for
driver A and lap 3 of driver A is covered by a stint span of driver A. -/
theorem c7_stint_spans_witness :
    (((exSession.laps.filter (fun l => l.driver == ("A" : String))).map
      (fun l => l.lapNumber)).Nodup) ∧
    (∀ l1 ∈ exSession.laps, ∀ l2 ∈ exSession.laps, lapKey l1 = lapKey l2 →
      ∀ n, n ≤ l2.lapNumber → l1.lapNumber ≤ n →
        ∃ l ∈ exSession.laps, lapKey l = lapKey l1 ∧ l.lapNumber = n) ∧
    (exLapA3 ∈ exSession.laps) ∧ (exLapA3.driver = ("A" : String)) ∧
    (∃ k a b, (k, a, b) ∈ plot_tyre_strategy_stints exSession.laps ∧
      k.1 = ("A" : String) ∧ a ≤ exLapA3.lapNumber ∧ exLapA3.lapNumber ≤ b) :=
  ⟨by decide, by decide, by decide, by decide,
    (c7_stint_spans exSession ("A") (by decide) (by decide)).1 exLapA3
      (by decide) (by decide)⟩
